import Mathlib

/-!
Shallow embedding of `aodh/evaluator/event.py` (the event-driven alarm
evaluator) for checking its natural-language specification.

Python values appearing in raw events, traits and alarm rule conditions are
modelled by the inductive `PyVal`.  Python floats are modelled as exact
rationals (no claim depends on IEEE rounding).  External library helpers
called by the source (`int`, `float`, `six.text_type`,
`oslo_utils.timeutils`, `fnmatch.fnmatch`, `operator.*`) and collaborators
living outside this repository (`aodh.evaluator.Evaluator._refresh`, the
storage connection) are modelled explicitly; each such definition carries a
comment saying what it models.
-/

set_option linter.unusedVariables false

namespace AodhEvent

/-- Python-like runtime values: `None`, strings, ints, floats (as exact
rationals), datetimes (as an integer timestamp), lists and string-keyed
dicts (association lists in insertion order, unique keys). -/
inductive PyVal where
  | none
  | str (s : String)
  | int (n : Int)
  | float (q : Rat)
  | dt (n : Int)
  | list (xs : List PyVal)
  | dict (xs : List (String × PyVal))

/-- Python exceptions that the embedded code can raise, plus opaque failures
of the external collaborators (storage fetch, refresh/notify). -/
inductive PyErr where
  | invalidEvent
  | valueError
  | typeError
  | keyError
  | indexError
  | attributeError
  | storageError
  | notifyError
deriving DecidableEq, Repr

/-- Python truthiness (`bool(v)`): `None`, `0`, `0.0`, `""` and empty
containers are falsy, everything else truthy; datetimes are always truthy. -/
def truthy : PyVal → Bool
  | .none => false
  | .str s => !s.isEmpty
  | .int n => n != 0
  | .float q => q != 0
  | .dt _ => true
  | .list xs => !xs.isEmpty
  | .dict xs => !xs.isEmpty

mutual

/-- Python `==` on `PyVal` (used by `operator.eq`, dict-key identification
and `in` tests): numeric values compare by value across `int`/`float`;
lists and dicts compare structurally (for dicts the model compares entries
in order, which agrees with Python on the unique-key, same-insertion-order
dicts built by this code); everything else compares only within its own
type, and cross-type comparison is `False`, never an error. -/
def pyBeq : PyVal → PyVal → Bool
  | .none, .none => true
  | .str a, .str b => a == b
  | .int a, .int b => a == b
  | .float a, .float b => a == b
  | .int a, .float b => (a : Rat) == b
  | .float a, .int b => a == (b : Rat)
  | .dt a, .dt b => a == b
  | .list xs, .list ys => pyBeqList xs ys
  | .dict xs, .dict ys => pyBeqKVs xs ys
  | _, _ => false

/-- Elementwise Python `==` on lists. -/
def pyBeqList : List PyVal → List PyVal → Bool
  | [], [] => true
  | x :: xs, y :: ys => pyBeq x y && pyBeqList xs ys
  | _, _ => false

/-- Entrywise Python `==` on dict association lists. -/
def pyBeqKVs : List (String × PyVal) → List (String × PyVal) → Bool
  | [], [] => true
  | (k, v) :: xs, (l, w) :: ys => k == l && pyBeq v w && pyBeqKVs xs ys
  | _, _ => false

end

/-- Lexicographic order on character lists by code point, as Python's
string `<`. -/
def charsLt : List Char → List Char → Bool
  | [], [] => false
  | [], _ :: _ => true
  | _ :: _, [] => false
  | a :: xs, b :: ys =>
      if a.val < b.val then true else if b.val < a.val then false else charsLt xs ys

/-- Numeric view of a value: Python `int` and `float` interoperate in
comparisons. -/
def pyNum : PyVal → Option Rat
  | .int n => some (n : Rat)
  | .float q => some q
  | _ => Option.none

/-- Python 3 ordering comparison (`operator.gt/lt/ge/le`): defined within
numbers, within strings (lexicographic) and within datetimes; any other
combination raises `TypeError`.  (Python also orders lists elementwise; no
alarm rule in scope compares list operands, so the model rejects them.) -/
def pyOrd (a b : PyVal) : Except PyErr Ordering :=
  match pyNum a, pyNum b with
  | some x, some y =>
      .ok (if x < y then Ordering.lt else if x = y then Ordering.eq else Ordering.gt)
  | _, _ =>
      match a, b with
      | .str x, .str y =>
          .ok (if charsLt x.toList y.toList then Ordering.lt
               else if charsLt y.toList x.toList then Ordering.gt else Ordering.eq)
      | .dt x, .dt y =>
          .ok (if x < y then Ordering.lt else if x = y then Ordering.eq else Ordering.gt)
      | _, _ => .error .typeError

/-- Model of `operator.gt`. -/
def pyGtB (a b : PyVal) : Except PyErr Bool := (pyOrd a b).map (fun o => o == Ordering.gt)

/-- Model of `operator.lt`. -/
def pyLtB (a b : PyVal) : Except PyErr Bool := (pyOrd a b).map (fun o => o == Ordering.lt)

/-- Model of `operator.ge`. -/
def pyGeB (a b : PyVal) : Except PyErr Bool := (pyOrd a b).map (fun o => o != Ordering.lt)

/-- Model of `operator.le`. -/
def pyLeB (a b : PyVal) : Except PyErr Bool := (pyOrd a b).map (fun o => o != Ordering.gt)

/-- Model of `operator.eq` (never raises). -/
def pyEqB (a b : PyVal) : Except PyErr Bool := .ok (pyBeq a b)

/-- Model of `operator.ne` (never raises). -/
def pyNeB (a b : PyVal) : Except PyErr Bool := .ok (!pyBeq a b)

/-- The `COMPARATORS` table of `event.py`, as a partial lookup: the six
operator names map to their comparator, every other name is absent (a
Python dict subscript on it raises `KeyError`). -/
def COMPARATORS : String → Option (PyVal → PyVal → Except PyErr Bool)
  | "gt" => some pyGtB
  | "lt" => some pyLtB
  | "ge" => some pyGeB
  | "le" => some pyLeB
  | "eq" => some pyEqB
  | "ne" => some pyNeB
  | _ => Option.none

/-- Membership of a character in a glob character-class body: `a-b` denotes
an inclusive range, any other character is a literal member (a trailing `-`
is literal), as in the regex produced by `fnmatch.translate`. -/
def classMatch : List Char → Char → Bool
  | [], _ => false
  | a :: '-' :: b :: rest, c =>
      (decide (a.val ≤ c.val) && decide (c.val ≤ b.val)) || classMatch rest c
  | a :: rest, c => a == c || classMatch rest c

/-- Scan a class body up to the closing `]`; `Option.none` when the class is
unterminated. -/
def scanClassEnd : List Char → List Char → Option (List Char × List Char)
  | _, [] => Option.none
  | acc, ']' :: rest => some (acc.reverse, rest)
  | acc, c :: rest => scanClassEnd (c :: acc) rest

/-- Parse the remainder of a pattern after `[`: an optional leading `!`
negates the class, a `]` directly after `[` (or after `[!`) is a literal
member, and the class runs to the next `]`; returns (negated, body, rest of
pattern), or `Option.none` when no closing `]` exists (then `[` is a
literal), matching `fnmatch.translate`. -/
def scanClass (ps : List Char) : Option (Bool × List Char × List Char) :=
  match ps with
  | '!' :: ']' :: rest => (scanClassEnd [']'] rest).map (fun p => (true, p.1, p.2))
  | '!' :: rest => (scanClassEnd [] rest).map (fun p => (true, p.1, p.2))
  | ']' :: rest => (scanClassEnd [']'] rest).map (fun p => (false, p.1, p.2))
  | _ => (scanClassEnd [] ps).map (fun p => (false, p.1, p.2))

/-- Full-string glob matching loop over (pattern, string): `*` matches any
run, `?` one character, `[...]` a character class.  The `fuel` argument only
makes the recursion structural: every step consumes one unit while
shortening pattern or string, so the initial fuel supplied by `fnmatch`
(pattern length + string length + 1) is never exhausted. -/
def globLoop : Nat → List Char → List Char → Bool
  | 0, _, _ => false
  | _ + 1, [], [] => true
  | fuel + 1, '*' :: ps, [] => globLoop fuel ps []
  | fuel + 1, '*' :: ps, c :: cs =>
      globLoop fuel ps (c :: cs) || globLoop fuel ('*' :: ps) cs
  | fuel + 1, '?' :: ps, _ :: cs => globLoop fuel ps cs
  | fuel + 1, '[' :: ps, c :: cs =>
      match scanClass ps with
      | some (neg, body, rest) => (neg != classMatch body c) && globLoop fuel rest cs
      | Option.none => ('[' == c) && globLoop fuel ps cs
  | _ + 1, _ :: _, [] => false
  | _ + 1, [], _ :: _ => false
  | fuel + 1, p :: ps, c :: cs => (p == c) && globLoop fuel ps cs

/-- Model of `fnmatch.fnmatch(name, pattern)` on POSIX (where
`os.path.normcase` is the identity): anchored shell-glob matching of the
whole string. -/
def fnmatch (name pat : String) : Bool :=
  globLoop (pat.length + name.length + 1) pat.toList name.toList

/-- Lookup in a string-keyed dict association list. -/
def dictFind : List (String × PyVal) → String → Option PyVal
  | [], _ => Option.none
  | (k, v) :: rest, f => if k == f then some v else dictFind rest f

/-- Model of Python's `d.get(f)` result on a dict, with absent keys giving
`None`. -/
def dictGetD (xs : List (String × PyVal)) (f : String) : PyVal :=
  (dictFind xs f).getD PyVal.none

/-- Model of the attribute call `v.get(f)`: only dicts have `get`
(`AttributeError` otherwise); a missing key yields `None`. -/
def pvGet : PyVal → String → Except PyErr PyVal
  | .dict xs, f => .ok (dictGetD xs f)
  | _, _ => .error .attributeError

/-- Model of `v.get(f, d)` with an explicit default. -/
def pvGetOr : PyVal → String → PyVal → Except PyErr PyVal
  | .dict xs, f, d => .ok ((dictFind xs f).getD d)
  | _, _, _ => .error .attributeError

/-- Model of the subscript `v[f]` on a dict: `KeyError` when the key is
missing, `TypeError` when `v` is not a dict. -/
def pyGetItem : PyVal → String → Except PyErr PyVal
  | .dict xs, f =>
      match dictFind xs f with
      | some v => .ok v
      | Option.none => .error .keyError
  | _, _ => .error .typeError

/-- Model of the subscript `v[i]` with a non-negative integer index:
lists index their elements (`IndexError` out of range), strings yield a
one-character string, anything else raises `TypeError`. -/
def pyIndex : PyVal → Nat → Except PyErr PyVal
  | .list xs, i =>
      match xs.get? i with
      | some v => .ok v
      | Option.none => .error .indexError
  | .str s, i =>
      match s.toList.get? i with
      | some c => .ok (.str (String.mk [c]))
      | Option.none => .error .indexError
  | _, _ => .error .typeError

/-- Whitespace stripping on both ends, as Python's `str.strip()` inside
`int(...)`/`float(...)`. -/
def trimChars (cs : List Char) : List Char :=
  ((cs.dropWhile Char.isWhitespace).reverse.dropWhile Char.isWhitespace).reverse

/-- Split a character list at every `.`, keeping empty segments, as
Python's `split('.')`. -/
def splitDotAux : List Char → List Char → List (List Char)
  | acc, [] => [acc.reverse]
  | acc, '.' :: rest => acc.reverse :: splitDotAux [] rest
  | acc, c :: rest => splitDotAux (c :: acc) rest

/-- Model of `field.split('.')` on a string. -/
def splitDots (s : String) : List String :=
  (splitDotAux [] s.toList).map String.mk

/-- Digits-only check for the cast parsers. -/
def allDigits (cs : List Char) : Bool := cs.all Char.isDigit

/-- Numeric value of a digit list (most significant first). -/
def natOfDigits (cs : List Char) : Nat := cs.foldl (fun acc c => acc * 10 + c.toNat - 48) 0

/-- Model of `int(s)` on a string: optional surrounding whitespace and a
single sign, then decimal digits; anything else raises `ValueError`.
(Python 3.6+ also accepts underscore separators; not modelled — no raw
event in scope uses them.) -/
def pyIntOfString (s : String) : Option Int :=
  match trimChars s.toList with
  | '+' :: rest => if rest ≠ [] && allDigits rest then some (natOfDigits rest) else Option.none
  | '-' :: rest => if rest ≠ [] && allDigits rest then some (-(natOfDigits rest : Int)) else Option.none
  | rest => if rest ≠ [] && allDigits rest then some (natOfDigits rest) else Option.none

/-- Truncation toward zero, as Python's `int(float)`. -/
def ratTrunc (q : Rat) : Int := if q < 0 then -((-q).floor) else q.floor

/-- Model of the builtin `int(value)`: ints pass through, floats truncate
toward zero, strings parse as decimal integers (`ValueError` on failure),
and `None`/containers/datetimes raise `TypeError`. -/
def pyIntCast : PyVal → Except PyErr PyVal
  | .int n => .ok (.int n)
  | .float q => .ok (.int (ratTrunc q))
  | .str s =>
      match pyIntOfString s with
      | some n => .ok (.int n)
      | Option.none => .error .valueError
  | _ => .error .typeError

/-- Decimal-string parser for `float(s)`: optional sign, digits with at most
one point, at least one digit overall.  (Exponent forms and `inf`/`nan` are
not modelled — no raw event in scope uses them.) -/
def parseDecimal (s : String) : Option Rat :=
  let core := fun (cs : List Char) =>
    match splitDotAux [] cs with
    | [ip] => if ip ≠ [] && allDigits ip then some ((natOfDigits ip : Rat)) else Option.none
    | [ip, fp] =>
        if (ip ≠ [] || fp ≠ []) && allDigits ip && allDigits fp then
          some ((natOfDigits ip : Rat) + (natOfDigits fp : Rat) / ((10 : Rat) ^ fp.length))
        else Option.none
    | _ => Option.none
  match trimChars s.toList with
  | '+' :: rest => core rest
  | '-' :: rest => (core rest).map Neg.neg
  | rest => core rest

/-- Model of the builtin `float(value)`: ints widen, floats pass through,
strings parse as decimals (`ValueError` on failure), and
`None`/containers/datetimes raise `TypeError`. -/
def pyFloatCast : PyVal → Except PyErr PyVal
  | .int n => .ok (.float (n : Rat))
  | .float q => .ok (.float q)
  | .str s =>
      match parseDecimal s with
      | some q => .ok (.float q)
      | Option.none => .error .valueError
  | _ => .error .typeError

/-- Model of
`timeutils.normalize_time(timeutils.parse_isotime(value))`: accepts a
string of the exact shape `YYYY-MM-DDThh:mm:ss` and encodes it as a single
integer (a calendar-faithful second count is irrelevant to the claims, only
parse success/failure and ordering within one run matter); every other
value raises `ValueError`, as `parse_isotime` does on unparsable input. -/
def parseIsotime : PyVal → Except PyErr PyVal
  | .str s =>
      match s.toList with
      | [y1, y2, y3, y4, '-', o1, o2, '-', d1, d2, 'T', h1, h2, ':', i1, i2, ':', c1, c2] =>
          if allDigits [y1, y2, y3, y4, o1, o2, d1, d2, h1, h2, i1, i2, c1, c2] then
            .ok (.dt (((((natOfDigits [y1, y2, y3, y4] * 12 + natOfDigits [o1, o2]) * 31
              + natOfDigits [d1, d2]) * 24 + natOfDigits [h1, h2]) * 60
              + natOfDigits [i1, i2]) * 60 + natOfDigits [c1, c2]))
          else .error .valueError
      | _ => .error .valueError
  | _ => .error .valueError

/-- Model of `six.text_type(value)` (`str()` conversion); the exact rendering
of non-string values is irrelevant to the claims. -/
def pyStrOf : PyVal → String
  | .str s => s
  | .int n => toString n
  | .float q => toString q
  | .dt n => toString n
  | .none => "None"
  | .list _ => "<list>"
  | .dict _ => "<dict>"

/-- The `_sanitize_trait_value(value, trait_type)` function of `event.py`:
type codes `2`/`'integer'` cast with `int`, `3`/`'float'` with `float`,
`4`/`'datetime'` parse an ISO timestamp, anything else stringifies.  The
membership tests `trait_type in (2, 'integer')` use Python `==`. -/
def sanitize_trait_value (value ttype : PyVal) : Except PyErr PyVal :=
  if pyBeq ttype (.int 2) || pyBeq ttype (.str "integer") then pyIntCast value
  else if pyBeq ttype (.int 3) || pyBeq ttype (.str "float") then pyFloatCast value
  else if pyBeq ttype (.int 4) || pyBeq ttype (.str "datetime") then parseIsotime value
  else .ok (.str (pyStrOf value))

/-- Lookup in a dict keyed by arbitrary Python values (the `self.traits`
dict), using Python `==` on keys. -/
def traitsFind : List (PyVal × PyVal) → PyVal → Option PyVal
  | [], _ => Option.none
  | (k, v) :: rest, f => if pyBeq k f then some v else traitsFind rest f

/-- Insertion-ordered dict update `d[k] = v`: overwriting an existing key
keeps its position and original key object, a new key appends. -/
def traitsSet : List (PyVal × PyVal) → PyVal → PyVal → List (PyVal × PyVal)
  | [], k, v => [(k, v)]
  | (k0, v0) :: rest, k, v =>
      if pyBeq k0 k then (k0, v) :: rest else (k0, v0) :: traitsSet rest k v

/-- Model of Python iteration `for t in v`: lists yield elements, strings
their characters, dicts their keys; other values raise `TypeError`. -/
def pyIter : PyVal → Except PyErr (List PyVal)
  | .list xs => .ok xs
  | .str s => .ok (s.toList.map (fun c => .str (String.mk [c])))
  | .dict xs => .ok (xs.map (fun kv => .str kv.1))
  | _ => .error .typeError

/-- The `Event._validate` method: `InvalidEvent` when the raw event is falsy
(empty or `None`), or `event.get('event_type')` is falsy (missing or
empty), or `event.get('message_id')` is falsy, in that order. -/
def validateEvent (obj : PyVal) : Except PyErr Unit :=
  if !truthy obj then .error .invalidEvent
  else
    match pvGet obj "event_type" with
    | .error e => .error e
    | .ok et =>
        if !truthy et then .error .invalidEvent
        else
          match pvGet obj "message_id" with
          | .error e => .error e
          | .ok mid => if !truthy mid then .error .invalidEvent else .ok ()

/-- Loop body of `Event._parse_traits`: for each trait tuple `t`, read
`t[0]` (field), `t[2]` (value) and `t[1]` (type code) in the source's
evaluation order, sanitize the value, store it under the field key, and
remember it as the project when the key is `tenant_id` or `project_id`. -/
def parseTraitsLoop :
    List PyVal → List (PyVal × PyVal) → PyVal → Except PyErr (List (PyVal × PyVal) × PyVal)
  | [], traits, project => .ok (traits, project)
  | t :: rest, traits, project =>
      match pyIndex t 0 with
      | .error e => .error e
      | .ok k =>
          match pyIndex t 2 with
          | .error e => .error e
          | .ok rawv =>
              match pyIndex t 1 with
              | .error e => .error e
              | .ok tty =>
                  match sanitize_trait_value rawv tty with
                  | .error e => .error e
                  | .ok v =>
                      parseTraitsLoop rest (traitsSet traits k v)
                        (if pyBeq k (.str "tenant_id") || pyBeq k (.str "project_id") then v
                         else project)

/-- The `Event._parse_traits` method: iterate `event.get('traits', [])`
starting from an empty trait dict and project `''`. -/
def parse_traits (obj : PyVal) : Except PyErr (List (PyVal × PyVal) × PyVal) :=
  match pvGetOr obj "traits" (.list []) with
  | .error e => .error e
  | .ok ts =>
      match pyIter ts with
      | .error e => .error e
      | .ok items => parseTraitsLoop items [] (.str "")

/-- The wrapped event object built by `Event.__init__`: the raw payload,
`message_id`, the sanitized trait dict and the derived project. -/
structure Event where
  obj : PyVal
  id : PyVal
  traits : List (PyVal × PyVal)
  project : PyVal

/-- The `Event.__init__` constructor: keep the raw object, validate it,
read `message_id`, then parse traits.  Any exception leaves no event
behind. -/
def Event.construct (e : PyVal) : Except PyErr Event :=
  match validateEvent e with
  | .error err => .error err
  | .ok _ =>
      match pvGet e "message_id" with
      | .error err => .error err
      | .ok id =>
          match parse_traits e with
          | .error err => .error err
          | .ok (traits, project) => .ok ⟨e, id, traits, project⟩

/-- Dotted-path walk of `Event.get_value`'s fallback branch: descend into
nested dicts via `get` (missing key gives `None`); as soon as the current
value has no `get` attribute, return `None`. -/
def getValueWalk : PyVal → List String → PyVal
  | v, [] => v
  | .dict xs, f :: rest => getValueWalk (dictGetD xs f) rest
  | _, _ :: _ => PyVal.none

/-- The `Event.get_value` method: a `traits.`-prefixed field looks up the
remainder of the path (`field.split('.', 1)[-1]`, i.e. everything after the
first dot) in the trait dict; any other field walks the raw event by the
dot-separated path. -/
def Event.get_value (ev : Event) (field : String) : PyVal :=
  match field.toList with
  | 't' :: 'r' :: 'a' :: 'i' :: 't' :: 's' :: '.' :: keyChars =>
      (traitsFind ev.traits (.str (String.mk keyChars))).getD PyVal.none
  | _ => getValueWalk ev.obj (splitDots field)

/-- One condition of an alarm rule's `query`: a dict with mandatory
`field` and `value` entries and an optional `op` entry (the alarm API
guarantees `field`/`value`; `condition.get('op', 'eq')` defaults the
operator). -/
structure Condition where
  field : String
  op : Option String
  value : PyVal

/-- An alarm as read from storage: identifier, owning project, current
state, the repeat flag and the two rule components this evaluator reads
(`alarm.rule['event_type']` and `alarm.rule['query']`). -/
structure Alarm where
  alarm_id : String
  project_id : PyVal
  state : String
  repeat_actions : Bool
  rule_event_type : String
  rule_query : List Condition

/-- Modelled from the spec: the `aodh.evaluator.ALARM` state constant (the
base evaluator module is not part of this repository); alarm states range
over `ok`, `alarm` and `insufficient data`. -/
def ALARM : String := "alarm"

/-- The inner `_compare(condition)` function of `_evaluate_alarm`: look the
operator name (`condition.get('op', 'eq')`) up in `COMPARATORS` (`KeyError`
when absent), resolve the event value for `condition['field']`, and apply
the comparator against `condition['value']`. -/
def compareCond (ev : Event) (c : Condition) : Except PyErr Bool :=
  match COMPARATORS (c.op.getD "eq") with
  | Option.none => .error .keyError
  | some op => op (ev.get_value c.field) c.value

/-- The condition loop of `_evaluate_alarm`: conditions are ANDed in rule
order and evaluation stops at the first false (or raising) condition. -/
def evalQuery (ev : Event) : List Condition → Except PyErr Bool
  | [] => .ok true
  | c :: rest =>
      match compareCond ev c with
      | .error e => .error e
      | .ok true => evalQuery ev rest
      | .ok false => .ok false

/-- The decision part of `EventAlarmEvaluator._evaluate_alarm`: returns
`true` exactly when the alarm is to be fired.  The already-fired guard
(`not alarm.repeat_actions and alarm.state == ALARM`) returns first; then
`alarm.rule['event_type']` is glob-matched against `event.obj['event_type']`
(`fnmatch` raises `TypeError` on a non-string event type); then the query
conditions run. -/
def evaluate_alarm (alarm : Alarm) (ev : Event) : Except PyErr Bool :=
  if !alarm.repeat_actions && alarm.state == ALARM then .ok false
  else
    match pyGetItem ev.obj "event_type" with
    | .error e => .error e
    | .ok (.str ets) =>
        if !fnmatch ets alarm.rule_event_type then .ok false
        else evalQuery ev alarm.rule_query
    | .ok _ => .error .typeError

/-- One per-project cache entry of `self.caches`: the alarmId → Alarm dict
and the refresh timestamp. -/
structure CacheEntry where
  alarms : List (String × Alarm)
  updated : Int

/-- Observable evaluator state: the `self.caches` dict (keyed by project
value, Python `==` on keys), plus three histories that record the
collaborator interactions — persisted state writes made through the base
class `_refresh` (alarm id and new state), in-place state writes to cached
alarm copies, and the projects passed to storage `get_alarms`. -/
structure EvalState where
  caches : List (PyVal × CacheEntry)
  refreshLog : List (String × String)
  cacheWrites : List (String × String)
  storageCalls : List PyVal

/-- Environment of one evaluator: the `event_alarm_cache_ttl` configuration
value (an integer option; Python truthiness disables caching at `0`), the
storage collaborator `get_alarms(enabled=True, alarm_type='event',
project=...)` which may raise, and, modelled from the spec, whether the
refresh/notify collaborator raises for a given alarm (its failures
propagate to the caller as an alarm-scoped error). -/
structure Env where
  ttl : Int
  storage : PyVal → Except PyErr (List Alarm)
  refreshRaises : String → Bool

/-- Cache lookup `self.caches[project]` / `project in self.caches`. -/
def cacheFind : List (PyVal × CacheEntry) → PyVal → Option CacheEntry
  | [], _ => Option.none
  | (k, e) :: rest, p => if pyBeq k p then some e else cacheFind rest p

/-- Cache update `self.caches[project] = entry`. -/
def cacheSet : List (PyVal × CacheEntry) → PyVal → CacheEntry → List (PyVal × CacheEntry)
  | [], p, e => [(p, e)]
  | (k, e0) :: rest, p, e =>
      if pyBeq k p then (k, e) :: rest else (k, e0) :: cacheSet rest p e

/-- Cache removal `del self.caches[project]`. -/
def cacheDel : List (PyVal × CacheEntry) → PyVal → List (PyVal × CacheEntry)
  | [], _ => []
  | (k, e0) :: rest, p => if pyBeq k p then rest else (k, e0) :: cacheDel rest p

/-- Lookup in the alarmId → Alarm dict of a cache entry. -/
def alarmsFind : List (String × Alarm) → String → Option Alarm
  | [], _ => Option.none
  | (k, a) :: rest, i => if k == i then some a else alarmsFind rest i

/-- Update of the alarmId → Alarm dict (existing key keeps its position). -/
def alarmsSet : List (String × Alarm) → String → Alarm → List (String × Alarm)
  | [], i, a => [(i, a)]
  | (k, a0) :: rest, i, a =>
      if k == i then (k, a) :: rest else (k, a0) :: alarmsSet rest i a

/-- The dict comprehension `{a.alarm_id: a for a in ...}`: insertion order,
last write wins on duplicate ids. -/
def buildAlarmMap (alarms : List Alarm) : List (String × Alarm) :=
  alarms.foldl (fun m a => alarmsSet m a.alarm_id a) []

/-- The fetch-and-cache tail of `_get_project_alarms`: call storage
`get_alarms` (recording the call; its exception propagates), build the
alarmId → Alarm dict, and when the TTL is truthy store it in `self.caches`
with `updated = utcnow()`. -/
def fetchAlarms (env : Env) (now : Int) (s : EvalState) (project : PyVal) :
    Except (PyErr × EvalState) (List (String × Alarm) × EvalState) :=
  match env.storage project with
  | .error e => .error (e, { s with storageCalls := s.storageCalls ++ [project] })
  | .ok alarms =>
      if env.ttl != 0 then
        .ok (buildAlarmMap alarms,
             { s with storageCalls := s.storageCalls ++ [project],
                      caches := cacheSet s.caches project ⟨buildAlarmMap alarms, now⟩ })
      else .ok (buildAlarmMap alarms, { s with storageCalls := s.storageCalls ++ [project] })

/-- The `EventAlarmEvaluator._get_project_alarms` method: with a truthy TTL
and a cached entry, `timeutils.is_older_than(updated, ttl)` (strictly
`now - updated > ttl`) decides between discarding the entry and returning
the cached dict without any storage call; otherwise fetch from storage and
cache the result.  `now` stands for `timeutils.utcnow()`. -/
def get_project_alarms (env : Env) (now : Int) (s : EvalState) (project : PyVal) :
    Except (PyErr × EvalState) (List (String × Alarm) × EvalState) :=
  if env.ttl != 0 then
    match cacheFind s.caches project with
    | some entry =>
        if now - entry.updated > env.ttl then
          fetchAlarms env now { s with caches := cacheDel s.caches project } project
        else .ok (entry.alarms, s)
    | Option.none => fetchAlarms env now s project
  else fetchAlarms env now s project

/-- The cache half of `EventAlarmEvaluator._refresh`: when the TTL is
truthy and the alarm's project has a cache entry, the cached copy's
`state` field is assigned in place (recorded in `cacheWrites`) — a
`KeyError` surfaces when that entry lacks the alarm id. -/
def refreshCachedCopy (env : Env) (alarm : Alarm) (st : String) (s1 : EvalState) :
    Except (PyErr × EvalState) EvalState :=
  if env.ttl != 0 then
    match cacheFind s1.caches alarm.project_id with
    | some entry =>
        match alarmsFind entry.alarms alarm.alarm_id with
        | some a =>
            .ok { s1 with
                    caches := cacheSet s1.caches alarm.project_id
                      ⟨alarmsSet entry.alarms alarm.alarm_id { a with state := st },
                       entry.updated⟩,
                    cacheWrites := s1.cacheWrites ++ [(alarm.alarm_id, st)] }
        | Option.none => .error (.keyError, s1)
    | Option.none => .ok s1
  else .ok s1

/-- The `EventAlarmEvaluator._refresh` override.  The base-class call
(modelled from the spec: it persists the new state and dispatches the
notification, and its failures propagate as an alarm-scoped error) is
recorded in `refreshLog` when it succeeds; then the cached copy is updated
in place. -/
def refreshAlarm (env : Env) (alarm : Alarm) (st : String) (s : EvalState) :
    Except (PyErr × EvalState) EvalState :=
  if env.refreshRaises alarm.alarm_id then .error (.notifyError, s)
  else
    refreshCachedCopy env alarm st
      { s with refreshLog := s.refreshLog ++ [(alarm.alarm_id, st)] }

/-- The `EventAlarmEvaluator._fire_alarm` method: build the reason strings
(not observable here) and refresh the alarm with state `ALARM`. -/
def fire_alarm (env : Env) (alarm : Alarm) (ev : Event) (s : EvalState) :
    Except (PyErr × EvalState) EvalState :=
  refreshAlarm env alarm ALARM s

/-- The complete `_evaluate_alarm` call as wrapped by the engine's try
block: the match decision followed, on a match, by `_fire_alarm`. -/
def evaluateAlarmFull (env : Env) (alarm : Alarm) (ev : Event) (s : EvalState) :
    Except (PyErr × EvalState) EvalState :=
  match evaluate_alarm alarm ev with
  | .error e => .error (e, s)
  | .ok false => .ok s
  | .ok true => fire_alarm env alarm ev s

/-- One iteration of the per-alarm loop of `evaluate_events`: any exception
from `_evaluate_alarm` is caught and logged, leaving whatever state the
attempt reached. -/
def stepAlarm (env : Env) (ev : Event) (s : EvalState) (alarm : Alarm) : EvalState :=
  match evaluateAlarmFull env alarm ev s with
  | .ok s1 => s1
  | .error (_, s1) => s1

/-- The per-alarm loop of `evaluate_events` over the alarmId → Alarm dict
items, in dict iteration order. -/
def processAlarms (env : Env) (ev : Event) (alarms : List (String × Alarm)) (s : EvalState) :
    EvalState :=
  alarms.foldl (fun s2 ia => stepAlarm env ev s2 ia.2) s

/-- The body of `evaluate_events` for one raw event: construct the `Event`
(only `InvalidEvent` is caught, skipping the event), fetch the project's
alarms (exceptions propagate), then run the per-alarm loop. -/
def evalOneEvent (env : Env) (now : Int) (s : EvalState) (e : PyVal) :
    Except (PyErr × EvalState) EvalState :=
  match Event.construct e with
  | .error PyErr.invalidEvent => .ok s
  | .error err => .error (err, s)
  | .ok ev =>
      match get_project_alarms env now s ev.project with
      | .error es => .error es
      | .ok (m, s1) => .ok (processAlarms env ev m s1)

/-- The event loop of `evaluate_events`: events run in order; an uncaught
exception aborts the loop (first component) with the state reached so
far. -/
def evalLoop (env : Env) (now : Int) : List PyVal → EvalState → Option PyErr × EvalState
  | [], s => (Option.none, s)
  | e :: rest, s =>
      match evalOneEvent env now s e with
      | .ok s1 => evalLoop env now rest s1
      | .error (err, s1) => (some err, s1)

/-- The `EventAlarmEvaluator.evaluate_events` entry point: a non-list
argument is wrapped into a singleton batch (`isinstance(events, list)`),
then the event loop runs.  `now` stands for the wall clock during the
batch. -/
def evaluate_events (env : Env) (now : Int) (s : EvalState) (events : PyVal) :
    Option PyErr × EvalState :=
  match events with
  | .list xs => evalLoop env now xs s
  | e => evalLoop env now [e] s

/-- The condition loop yields `ok true` exactly when every condition of the
query compares to `ok true`. -/
theorem evalQuery_ok_true_iff (ev : Event) (q : List Condition) :
    evalQuery ev q = .ok true ↔ ∀ c ∈ q, compareCond ev c = .ok true := by
  induction q with
  | nil => simp [evalQuery]
  | cons c rest ih =>
      simp only [evalQuery]
      cases h : compareCond ev c with
      | error e => simp [h]
      | ok b => cases b with
        | true => simp [h, ih]
        | false => simp [h]

/-- The condition loop short-circuits: with every condition before `c` true
and `c` false, the result is `ok false` whatever follows `c`. -/
theorem evalQuery_first_false (ev : Event) (pre : List Condition) (c : Condition)
    (rest : List Condition) (hpre : ∀ p ∈ pre, compareCond ev p = .ok true)
    (hc : compareCond ev c = .ok false) :
    evalQuery ev (pre ++ c :: rest) = .ok false := by
  induction pre with
  | nil => simp [evalQuery, hc]
  | cons p ps ih =>
      have hp := hpre p (by simp)
      simp only [List.cons_append, evalQuery, hp]
      exact ih (fun q hq => hpre q (by simp [hq]))

/-- An alarm that passes the already-fired guard makes the guard condition
of `_evaluate_alarm` false. -/
theorem guard_cond_false (alarm : Alarm)
    (h : ¬(alarm.repeat_actions = false ∧ alarm.state = ALARM)) :
    (!alarm.repeat_actions && alarm.state == ALARM) = false := by
  cases hr : alarm.repeat_actions with
  | true => simp
  | false =>
      have hs : alarm.state ≠ ALARM := fun hs => h ⟨hr, hs⟩
      simp [hs]

/-- C1: for every alarm that passes the already-fired guard and every valid
event with a string event type, `_evaluate_alarm` decides to fire exactly
when the alarm's `event_type` glob pattern matches the event's type and
every condition of the rule's query compares true (op defaulting to `eq`,
operand `event.get_value(field)` against the condition's `value`);
evaluation short-circuits without firing on a non-matching pattern or at
the first false condition. -/
theorem evaluate_alarm_fires_iff (alarm : Alarm) (raw : PyVal) (ev : Event) (ets : String)
    (hev : Event.construct raw = .ok ev)
    (hguard : ¬(alarm.repeat_actions = false ∧ alarm.state = ALARM))
    (hets : pyGetItem ev.obj "event_type" = .ok (.str ets)) :
    (evaluate_alarm alarm ev = .ok true ↔
       (fnmatch ets alarm.rule_event_type = true ∧
        ∀ c ∈ alarm.rule_query, compareCond ev c = .ok true)) ∧
    (fnmatch ets alarm.rule_event_type = false → evaluate_alarm alarm ev = .ok false) ∧
    (∀ pre c rest, alarm.rule_query = pre ++ c :: rest →
       (∀ p ∈ pre, compareCond ev p = .ok true) →
       compareCond ev c = .ok false →
       evaluate_alarm alarm ev = .ok false) := by
  have hg := guard_cond_false alarm hguard
  unfold evaluate_alarm
  rw [hg, hets]
  simp only [Bool.false_eq_true, if_false]
  cases hf : fnmatch ets alarm.rule_event_type with
  | false =>
      simp only [Bool.not_false, if_true]
      refine ⟨by simp, by simp, by simp⟩
  | true =>
      simp only [Bool.not_true, Bool.false_eq_true, if_false]
      refine ⟨?_, by simp, ?_⟩
      · simpa using evalQuery_ok_true_iff ev alarm.rule_query
      · intro pre c rest hq hpre hc
        rw [hq]
        exact evalQuery_first_false ev pre c rest hpre hc

/-- An alarm whose evaluation raises leaves the engine state untouched:
the per-alarm try/except swallows the exception before any state change
(the decision part performs no write). -/
theorem stepAlarm_of_error (env : Env) (ev : Event) (alarm : Alarm) (err : PyErr)
    (h : evaluate_alarm alarm ev = .error err) (s : EvalState) :
    stepAlarm env ev s alarm = s := by
  simp [stepAlarm, evaluateAlarmFull, h]

/-- An alarm whose evaluation returns without firing leaves the engine
state untouched. -/
theorem stepAlarm_of_false (env : Env) (ev : Event) (alarm : Alarm)
    (h : evaluate_alarm alarm ev = .ok false) (s : EvalState) :
    stepAlarm env ev s alarm = s := by
  simp [stepAlarm, evaluateAlarmFull, h]

/-- Removing one no-op alarm from the per-alarm loop does not change the
outcome for the sibling alarms. -/
theorem processAlarms_skip (env : Env) (ev : Event) (bad : Alarm)
    (hskip : ∀ s, stepAlarm env ev s bad = s) (i : String)
    (pre post : List (String × Alarm)) (s : EvalState) :
    processAlarms env ev (pre ++ (i, bad) :: post) s = processAlarms env ev (pre ++ post) s := by
  unfold processAlarms
  rw [List.foldl_append, List.foldl_append, List.foldl_cons, hskip]

/-- C6: an exception raised while matching or firing one alarm is caught by
`evaluate_events`; the engine state is unchanged by the failing alarm,
every sibling alarm in the mapping is still evaluated with the same
outcome, and the event loop goes on to the remaining events of the
batch. -/
theorem alarm_failure_isolated (env : Env) (ev : Event) (bad : Alarm) (err : PyErr)
    (hbad : evaluate_alarm bad ev = .error err) :
    (∀ s, stepAlarm env ev s bad = s) ∧
    (∀ i pre post s, processAlarms env ev (pre ++ (i, bad) :: post) s =
        processAlarms env ev (pre ++ post) s) ∧
    (∀ now s raw rest m s1, Event.construct raw = .ok ev →
        get_project_alarms env now s ev.project = .ok (m, s1) →
        evalLoop env now (raw :: rest) s = evalLoop env now rest (processAlarms env ev m s1)) := by
  refine ⟨stepAlarm_of_error env ev bad err hbad, ?_, ?_⟩
  · intro i pre post s
    exact processAlarms_skip env ev bad (stepAlarm_of_error env ev bad err hbad) i pre post s
  · intro now s raw rest m s1 hraw hget
    simp [evalLoop, evalOneEvent, hraw, hget]

/-- The condition loop propagates the first raising condition when every
condition before it is true. -/
theorem evalQuery_first_error (ev : Event) (pre : List Condition) (c : Condition)
    (rest : List Condition) (err : PyErr)
    (hpre : ∀ p ∈ pre, compareCond ev p = .ok true)
    (hc : compareCond ev c = .error err) :
    evalQuery ev (pre ++ c :: rest) = .error err := by
  induction pre with
  | nil => simp [evalQuery, hc]
  | cons p ps ih =>
      have hp := hpre p (by simp)
      simp only [List.cons_append, evalQuery, hp]
      exact ih (fun q hq => hpre q (by simp [hq]))

/-- C10: a condition whose `op` names no comparator makes `_compare` raise
`KeyError` from the table lookup, before any comparison (for every field
and operand value); when such a condition is reached the query evaluation
raises instead of silently not matching, and the engine's per-alarm catch
leaves the state unchanged while sibling alarms are still evaluated. -/
theorem unknown_op_keyerror (ev : Event) (c : Condition) (opName : String)
    (hop : c.op = some opName) (hbad : COMPARATORS opName = Option.none) :
    compareCond ev c = .error .keyError ∧
    (∀ pre rest, (∀ p ∈ pre, compareCond ev p = .ok true) →
        evalQuery ev (pre ++ c :: rest) = .error .keyError) ∧
    (∀ env alarm s i pre post, evaluate_alarm alarm ev = .error .keyError →
        stepAlarm env ev s alarm = s ∧
        processAlarms env ev (pre ++ (i, alarm) :: post) s =
          processAlarms env ev (pre ++ post) s) := by
  have hcmp : compareCond ev c = .error .keyError := by
    simp [compareCond, hop, hbad]
  refine ⟨hcmp, ?_, ?_⟩
  · intro pre rest hpre
    exact evalQuery_first_error ev pre c rest .keyError hpre hcmp
  · intro env alarm s i pre post halarm
    exact ⟨stepAlarm_of_error env ev alarm .keyError halarm s,
           processAlarms_skip env ev alarm
             (stepAlarm_of_error env ev alarm .keyError halarm) i pre post s⟩

/-- C5: an alarm with `repeat_actions` false whose state is already `alarm`
is skipped by the guard before matching: the decision is a non-fire for
every event, and the engine step performs no refresh and leaves the state
(including every cached alarm state) unchanged. -/
theorem already_fired_guard_skips (alarm : Alarm) (ev : Event)
    (hrep : alarm.repeat_actions = false) (hst : alarm.state = ALARM) :
    evaluate_alarm alarm ev = .ok false ∧
    ∀ env s, stepAlarm env ev s alarm = s := by
  have hdec : evaluate_alarm alarm ev = .ok false := by
    unfold evaluate_alarm
    simp [hrep, hst]
  exact ⟨hdec, fun env s => stepAlarm_of_false env ev alarm hdec s⟩

/-- Concrete raw event: a `compute.instance.update` notification of project
`p1` carrying an integer trait `count = 42`. -/
def rawUpdate : PyVal :=
  .dict [("event_type", .str "compute.instance.update"),
         ("message_id", .str "m-1"),
         ("traits", .list [.list [.str "project_id", .int 1, .str "p1"],
                           .list [.str "count", .int 2, .str "42"]])]

/-- The `Event` that `rawUpdate` constructs to. -/
def evUpdate : Event :=
  ⟨rawUpdate, .str "m-1",
   [(.str "project_id", .str "p1"), (.str "count", .int 42)], .str "p1"⟩

/-- Concrete alarm of project `p1` that fires on `rawUpdate`: pattern
`compute.instance.*` and query `count > 40` AND `count = 42`. -/
def alarmGt : Alarm :=
  ⟨"a-1", .str "p1", "ok", false, "compute.instance.*",
   [⟨"traits.count", some "gt", .int 40⟩, ⟨"traits.count", Option.none, .int 42⟩]⟩

/-- Concrete already-fired alarm: `repeat_actions` false and state `alarm`,
with a pattern and query that `rawUpdate` would match. -/
def alarmFired : Alarm :=
  ⟨"a-2", .str "p1", "alarm", false, "compute.instance.*",
   [⟨"traits.count", some "gt", .int 40⟩]⟩

/-- Concrete broken alarm: its condition compares the integer trait against
a string with an ordering operator, a `TypeError` under Python 3. -/
def alarmTypeErr : Alarm :=
  ⟨"a-3", .str "p1", "ok", false, "compute.instance.*",
   [⟨"traits.count", some "gt", .str "forty"⟩]⟩

/-- Concrete environment: TTL 60 seconds, storage returning `alarmGt` for
every project, refresh collaborator never failing. -/
def envTtl : Env := ⟨60, fun _ => .ok [alarmGt], fun _ => false⟩

/-- The evaluator state at process start: empty cache, no recorded
collaborator interaction. -/
def stateEmpty : EvalState := ⟨[], [], [], []⟩

/-- Witness for C1: the concrete alarm `alarmGt` passes the guard, its
pattern matches `compute.instance.update`, both query conditions hold, and
`_evaluate_alarm` decides to fire. -/
theorem evaluate_alarm_fires_iff_witness :
    evaluate_alarm alarmGt evUpdate = .ok true ∧
    fnmatch "compute.instance.update" "compute.instance.*" = true := by
  have h := evaluate_alarm_fires_iff alarmGt rawUpdate evUpdate "compute.instance.update"
    rfl (by decide) rfl
  refine ⟨h.1.mpr ⟨rfl, ?_⟩, rfl⟩
  intro c hc
  simp only [alarmGt, List.mem_cons, List.not_mem_nil, or_false] at hc
  rcases hc with rfl | rfl <;> rfl

/-- Witness for C5: the fired alarm is skipped on the matching event
`rawUpdate` and the engine state is untouched. -/
theorem already_fired_guard_skips_witness :
    evaluate_alarm alarmFired evUpdate = .ok false ∧
    stepAlarm envTtl evUpdate stateEmpty alarmFired = stateEmpty := by
  have h := already_fired_guard_skips alarmFired evUpdate rfl rfl
  exact ⟨h.1, h.2 envTtl stateEmpty⟩

/-- Witness for C6: the broken alarm `alarmTypeErr` raises `TypeError`, the
engine swallows it without state change, and the sibling alarm `alarmGt`
is evaluated exactly as if the broken alarm were absent. -/
theorem alarm_failure_isolated_witness :
    evaluate_alarm alarmTypeErr evUpdate = .error .typeError ∧
    stepAlarm envTtl evUpdate stateEmpty alarmTypeErr = stateEmpty ∧
    processAlarms envTtl evUpdate [("a-3", alarmTypeErr), ("a-1", alarmGt)] stateEmpty =
      processAlarms envTtl evUpdate [("a-1", alarmGt)] stateEmpty := by
  have h := alarm_failure_isolated envTtl evUpdate alarmTypeErr .typeError rfl
  exact ⟨rfl, h.1 stateEmpty, h.2.1 "a-3" [] [("a-1", alarmGt)] stateEmpty⟩

/-- Witness for C10: the unknown operator name `foo` raises `KeyError` in
`_compare` and in the query evaluation. -/
theorem unknown_op_keyerror_witness :
    compareCond evUpdate ⟨"traits.count", some "foo", .int 1⟩ = .error .keyError ∧
    evalQuery evUpdate [⟨"traits.count", some "foo", .int 1⟩] = .error .keyError := by
  have h := unknown_op_keyerror evUpdate ⟨"traits.count", some "foo", .int 1⟩ "foo" rfl rfl
  exact ⟨h.1, h.2.1 [] [] (by simp)⟩

/-- C4: a raw event that is empty or absent, or whose `event_type` is
missing (or falsy), or whose `message_id` is missing (or falsy), fails
construction with `InvalidEvent`, and the event loop drops it without any
alarm lookup or matching (the state is untouched) and continues with the
next event. -/
theorem invalid_event_skipped (e : PyVal)
    (h : truthy e = false ∨
         (∃ xs, e = .dict xs ∧ truthy (dictGetD xs "event_type") = false) ∨
         (∃ xs, e = .dict xs ∧ truthy (dictGetD xs "message_id") = false)) :
    Event.construct e = .error .invalidEvent ∧
    ∀ env now s rest, evalLoop env now (e :: rest) s = evalLoop env now rest s := by
  have hv : validateEvent e = .error .invalidEvent := by
    rcases h with h1 | ⟨xs, rfl, h2⟩ | ⟨xs, rfl, h3⟩
    · simp [validateEvent, h1]
    · unfold validateEvent
      cases htr : truthy (PyVal.dict xs) with
      | false => simp
      | true => simp [pvGet, h2]
    · unfold validateEvent
      cases htr : truthy (PyVal.dict xs) with
      | false => simp
      | true =>
          cases het : truthy (dictGetD xs "event_type") with
          | false => simp [pvGet, het]
          | true => simp [pvGet, het, h3]
  have hc : Event.construct e = .error .invalidEvent := by
    simp [Event.construct, hv]
  exact ⟨hc, fun env now s rest => by simp [evalLoop, evalOneEvent, hc]⟩

/-- Witness for C4: a raw event lacking `message_id` is rejected with
`InvalidEvent` and skipped, leaving the batch to continue with
`rawUpdate`. -/
theorem invalid_event_skipped_witness :
    Event.construct (.dict [("event_type", .str "compute.instance.update")]) =
      .error .invalidEvent ∧
    evalLoop envTtl 0 [.dict [("event_type", .str "compute.instance.update")], rawUpdate]
        stateEmpty =
      evalLoop envTtl 0 [rawUpdate] stateEmpty := by
  have h := invalid_event_skipped (.dict [("event_type", .str "compute.instance.update")])
    (Or.inr (Or.inr ⟨[("event_type", .str "compute.instance.update")], rfl, rfl⟩))
  exact ⟨h.1, h.2 envTtl 0 stateEmpty [rawUpdate]⟩

mutual

/-- Python `==` is reflexive on every value. -/
theorem pyBeq_refl : ∀ v : PyVal, pyBeq v v = true
  | .none => rfl
  | .str s => by simp [pyBeq]
  | .int n => by simp [pyBeq]
  | .float q => by simp [pyBeq]
  | .dt n => by simp [pyBeq]
  | .list xs => by simp [pyBeq, pyBeqList_refl xs]
  | .dict xs => by simp [pyBeq, pyBeqKVs_refl xs]

/-- Elementwise reflexivity for list values. -/
theorem pyBeqList_refl : ∀ xs : List PyVal, pyBeqList xs xs = true
  | [] => rfl
  | x :: xs => by simp [pyBeqList, pyBeq_refl x, pyBeqList_refl xs]

/-- Entrywise reflexivity for dict values. -/
theorem pyBeqKVs_refl : ∀ xs : List (String × PyVal), pyBeqKVs xs xs = true
  | [] => rfl
  | (k, v) :: xs => by simp [pyBeqKVs, pyBeq_refl v, pyBeqKVs_refl xs]

end

/-- Writing a cache entry makes it the one found for that project. -/
theorem cacheFind_cacheSet_self (cs : List (PyVal × CacheEntry)) (p : PyVal) (e : CacheEntry) :
    cacheFind (cacheSet cs p e) p = some e := by
  induction cs with
  | nil => simp [cacheSet, cacheFind, pyBeq_refl]
  | cons kv rest ih =>
      obtain ⟨k, e0⟩ := kv
      cases hk : pyBeq k p with
      | true => simp [cacheSet, cacheFind, hk]
      | false => simp [cacheSet, cacheFind, hk, ih]

/-- A truthy TTL as the engine tests it. -/
theorem ttl_ne_zero (env : Env) (h : 0 < env.ttl) : (env.ttl != 0) = true := by
  simp only [bne_iff_ne, ne_eq]
  omega

/-- C7: with a positive TTL and an uncached project, the first
`_get_project_alarms` call fetches from storage exactly once and stores
the entry, and a second call within the TTL window returns the same
alarmId→Alarm mapping from the cache without touching storage or any other
state. -/
theorem cache_hit_single_fetch (env : Env) (project : PyVal) (s : EvalState)
    (now1 now2 : Int) (alarms : List Alarm)
    (httl : 0 < env.ttl)
    (hmiss : cacheFind s.caches project = Option.none)
    (hstore : env.storage project = .ok alarms)
    (hwin : now2 - now1 ≤ env.ttl) :
    ∃ s1, get_project_alarms env now1 s project = .ok (buildAlarmMap alarms, s1) ∧
      s1.storageCalls = s.storageCalls ++ [project] ∧
      get_project_alarms env now2 s1 project = .ok (buildAlarmMap alarms, s1) := by
  have hz := ttl_ne_zero env httl
  refine ⟨{ s with
              storageCalls := s.storageCalls ++ [project],
              caches := cacheSet s.caches project ⟨buildAlarmMap alarms, now1⟩ }, ?_, rfl, ?_⟩
  · unfold get_project_alarms fetchAlarms
    rw [hz, hmiss, hstore]
    simp [hz]
  · unfold get_project_alarms
    rw [hz]
    simp only []
    rw [cacheFind_cacheSet_self]
    have hfresh : ¬(now2 - now1 > env.ttl) := by omega
    simp [hfresh]

/-- Witness for C7: a miss at time 0 followed by a hit at time 60 under a
60-second TTL performs one storage fetch and returns the same mapping
twice. -/
theorem cache_hit_single_fetch_witness :
    ∃ s1, get_project_alarms envTtl 0 stateEmpty (.str "p1") =
            .ok (buildAlarmMap [alarmGt], s1) ∧
      s1.storageCalls = stateEmpty.storageCalls ++ [.str "p1"] ∧
      get_project_alarms envTtl 60 s1 (.str "p1") = .ok (buildAlarmMap [alarmGt], s1) :=
  cache_hit_single_fetch envTtl (.str "p1") stateEmpty 0 60 [alarmGt]
    (by decide) rfl rfl (by decide)

/-- Concrete environment for the cache-staleness boundary: TTL 60 and a
storage whose fetch would return an empty alarm list, distinguishable from
the cached mapping. -/
def envBoundary : Env := ⟨60, fun _ => .ok [], fun _ => false⟩

/-- Concrete state with a cache entry for project `p1` written at time 0. -/
def stateCached : EvalState := ⟨[(.str "p1", ⟨[("a-1", alarmGt)], 0⟩)], [], [], []⟩

/-- Counterexample for C8: at `now = 60` the entry written at 0 has age
exactly TTL (60), where the claim requires a discard and a fresh fetch;
the code instead serves the cached mapping unchanged — no storage call is
recorded and the result is the cached dict, not the fetch result `[]`. -/
theorem cache_boundary_counterexample :
    get_project_alarms envBoundary 60 stateCached (.str "p1") =
      .ok ([("a-1", alarmGt)], stateCached) ∧
    stateCached.storageCalls = [] ∧
    buildAlarmMap [] = ([] : List (String × Alarm)) :=
  ⟨rfl, rfl, rfl⟩

/-- C8 (amended): with TTL > 0 and a cached entry, the entry is discarded
and a fresh storage fetch issued exactly when `now - entry.updated` is
STRICTLY greater than the TTL (`timeutils.is_older_than`); at age equal to
or below the TTL the cached mapping is returned with no storage call. -/
theorem cache_staleness_strict (env : Env) (project : PyVal) (s : EvalState)
    (entry : CacheEntry) (now : Int)
    (httl : 0 < env.ttl)
    (hhit : cacheFind s.caches project = some entry) :
    (now - entry.updated > env.ttl →
        get_project_alarms env now s project =
          fetchAlarms env now { s with caches := cacheDel s.caches project } project) ∧
    (now - entry.updated ≤ env.ttl →
        get_project_alarms env now s project = .ok (entry.alarms, s)) := by
  have hz := ttl_ne_zero env httl
  constructor
  · intro hstale
    unfold get_project_alarms
    rw [hz]
    simp only []
    rw [hhit]
    simp [hstale]
  · intro hfresh
    unfold get_project_alarms
    rw [hz]
    simp only []
    rw [hhit]
    have hns : ¬(now - entry.updated > env.ttl) := by omega
    simp [hns]

/-- Witness for the amended C8: with the entry of age 61 the call equals a
fresh fetch on the entry-discarded state, and with age exactly 60 (= TTL)
the cached mapping is returned as-is. -/
theorem cache_staleness_strict_witness :
    get_project_alarms envBoundary 61 stateCached (.str "p1") =
      fetchAlarms envBoundary 61
        { stateCached with caches := cacheDel stateCached.caches (.str "p1") } (.str "p1") ∧
    get_project_alarms envBoundary 60 stateCached (.str "p1") =
      .ok ([("a-1", alarmGt)], stateCached) := by
  have h1 := cache_staleness_strict envBoundary (.str "p1") stateCached
    ⟨[("a-1", alarmGt)], 0⟩ 61 (by decide) rfl
  have h2 := cache_staleness_strict envBoundary (.str "p1") stateCached
    ⟨[("a-1", alarmGt)], 0⟩ 60 (by decide) rfl
  exact ⟨h1.1 (by decide), h2.2 (by decide)⟩

/-- Concrete second raw event, owned by project `p2`. -/
def rawP2 : PyVal :=
  .dict [("event_type", .str "compute.instance.update"),
         ("message_id", .str "m-2"),
         ("traits", .list [.list [.str "project_id", .int 1, .str "p2"]])]

/-- Concrete alarm of project `p2` with an empty query: it fires on any
event whose type matches its pattern. -/
def alarmP2 : Alarm := ⟨"a-4", .str "p2", "ok", false, "compute.instance.*", []⟩

/-- Concrete environment whose storage raises for project `p1` and answers
`[alarmP2]` for any other project. -/
def envStorageFail : Env :=
  ⟨60, fun p => if pyBeq p (.str "p1") then .error .storageError else .ok [alarmP2],
   fun _ => false⟩

/-- Counterexample for C2: with storage failing for the first event's
project `p1`, the batch `[rawUpdate, rawP2]` aborts with the storage error
and nothing fires — although the second event alone fires `alarmP2` — so
the remaining events are NOT evaluated and the batch does not run to
completion. -/
theorem storage_error_counterexample :
    (evaluate_events envStorageFail 0 stateEmpty (.list [rawUpdate, rawP2])).1 =
      some .storageError ∧
    (evaluate_events envStorageFail 0 stateEmpty (.list [rawUpdate, rawP2])).2.refreshLog =
      [] ∧
    (evaluate_events envStorageFail 0 stateEmpty (.list [rawP2])).2.refreshLog =
      [("a-4", ALARM)] :=
  ⟨rfl, rfl, rfl⟩

/-- C2 (amended): an exception raised by the storage collaborator's
`get_alarms` while resolving one event's project is NOT isolated: it
propagates out of `evaluate_events`, aborting the batch at that event
(the only state change is the recorded failed fetch), and the remaining
events are not evaluated.  Only `InvalidEvent` and per-alarm evaluation
errors are caught. -/
theorem storage_error_aborts (env : Env) (now : Int) (s : EvalState) (e : PyVal)
    (rest : List PyVal) (ev : Event) (err : PyErr)
    (hev : Event.construct e = .ok ev)
    (hmiss : cacheFind s.caches ev.project = Option.none)
    (hstore : env.storage ev.project = .error err) :
    evalLoop env now (e :: rest) s =
      (some err, { s with storageCalls := s.storageCalls ++ [ev.project] }) := by
  have hget : get_project_alarms env now s ev.project =
      .error (err, { s with storageCalls := s.storageCalls ++ [ev.project] }) := by
    unfold get_project_alarms fetchAlarms
    cases hz : (env.ttl != 0) with
    | true => rw [hmiss]; simp [hstore]
    | false => simp [hstore]
  simp [evalLoop, evalOneEvent, hev, hget]

/-- Witness for the amended C2: the concrete aborted batch. -/
theorem storage_error_aborts_witness :
    evalLoop envStorageFail 0 [rawUpdate, rawP2] stateEmpty =
      (some .storageError,
       { stateEmpty with storageCalls := stateEmpty.storageCalls ++ [.str "p1"] }) :=
  storage_error_aborts envStorageFail 0 stateEmpty rawUpdate [rawP2] evUpdate
    .storageError rfl rfl rfl

/-- Concrete raw event with a trait whose value fails integer
normalization. -/
def rawBadTrait : PyVal :=
  .dict [("event_type", .str "compute.instance.update"),
         ("message_id", .str "m-3"),
         ("traits", .list [.list [.str "count", .int 2, .str "not-a-number"]])]

/-- Counterexample for C3: the event with a non-numeric string under the
integer type code fails construction with `ValueError` — not
`InvalidEvent` — and `evaluate_events` does not drop it and continue: the
batch `[rawBadTrait, rawUpdate]` aborts with the error and the second
event, which alone fires `alarmGt`, is never evaluated. -/
theorem trait_error_counterexample :
    Event.construct rawBadTrait = .error .valueError ∧
    Event.construct rawBadTrait ≠ .error .invalidEvent ∧
    (evaluate_events envTtl 0 stateEmpty (.list [rawBadTrait, rawUpdate])).1 =
      some .valueError ∧
    (evaluate_events envTtl 0 stateEmpty (.list [rawBadTrait, rawUpdate])).2.refreshLog =
      [] ∧
    (evaluate_events envTtl 0 stateEmpty (.list [rawUpdate])).2.refreshLog =
      [("a-1", ALARM)] := by
  refine ⟨rfl, ?_, rfl, rfl, rfl⟩
  intro hcontra
  simp [show Event.construct rawBadTrait = .error PyErr.valueError from rfl] at hcontra

/-- A raw event that passes `_validate` is a dict. -/
theorem validate_ok_dict (e : PyVal) (h : validateEvent e = .ok ()) :
    ∃ xs, e = .dict xs := by
  cases e with
  | dict xs => exact ⟨xs, rfl⟩
  | none => simp [validateEvent, truthy] at h
  | str s => unfold validateEvent at h; split at h <;> simp [pvGet] at h
  | int n => unfold validateEvent at h; split at h <;> simp [pvGet] at h
  | float q => unfold validateEvent at h; split at h <;> simp [pvGet] at h
  | dt n => unfold validateEvent at h; split at h <;> simp [pvGet] at h
  | list xs => unfold validateEvent at h; split at h <;> simp [pvGet] at h

/-- C3 (amended): a raw event that passes field validation but whose trait
parsing fails with a normalization error (`ValueError`) makes `Event`
construction fail with that error (no partially-built record exists), and
the error — being no `InvalidEvent` — is not caught by `evaluate_events`:
the batch aborts at that event with no state change, instead of dropping
the event and continuing. -/
theorem trait_error_aborts (env : Env) (now : Int) (s : EvalState) (e : PyVal)
    (rest : List PyVal)
    (hval : validateEvent e = .ok ())
    (htr : parse_traits e = .error .valueError) :
    Event.construct e = .error .valueError ∧
    evalLoop env now (e :: rest) s = (some .valueError, s) := by
  obtain ⟨xs, rfl⟩ := validate_ok_dict e hval
  have hc : Event.construct (.dict xs) = .error .valueError := by
    simp [Event.construct, hval, pvGet, htr]
  exact ⟨hc, by simp [evalLoop, evalOneEvent, hc]⟩

/-- Witness for the amended C3: the concrete bad-trait event aborts the
concrete batch. -/
theorem trait_error_aborts_witness :
    Event.construct rawBadTrait = .error .valueError ∧
    evalLoop envTtl 0 [rawBadTrait, rawUpdate] stateEmpty =
      (some .valueError, stateEmpty) := by
  have h := trait_error_aborts envTtl 0 stateEmpty rawBadTrait [rawUpdate] rfl rfl
  exact h

/-- Relation between two evaluator states: every persisted refresh and
every in-place cached-state write present in the second state was either
already present in the first or writes the state `ALARM`. -/
def writesOnlyAlarm (s s1 : EvalState) : Prop :=
  (∀ p ∈ s1.refreshLog, p ∈ s.refreshLog ∨ p.2 = ALARM) ∧
  (∀ p ∈ s1.cacheWrites, p ∈ s.cacheWrites ∨ p.2 = ALARM)

/-- The write relation is reflexive. -/
theorem writesOnlyAlarm_refl (s : EvalState) : writesOnlyAlarm s s :=
  ⟨fun _ hp => Or.inl hp, fun _ hp => Or.inl hp⟩

/-- The write relation is transitive. -/
theorem writesOnlyAlarm_trans {s1 s2 s3 : EvalState}
    (h12 : writesOnlyAlarm s1 s2) (h23 : writesOnlyAlarm s2 s3) : writesOnlyAlarm s1 s3 := by
  constructor
  · intro p hp
    rcases h23.1 p hp with h | h
    · exact h12.1 p h
    · exact Or.inr h
  · intro p hp
    rcases h23.2 p hp with h | h
    · exact h12.2 p h
    · exact Or.inr h

/-- Appending one `ALARM` write keeps the write relation. -/
theorem mem_append_alarm {l : List (String × String)} {aid : String} {p : String × String}
    (hp : p ∈ l ++ [(aid, ALARM)]) : p ∈ l ∨ p.2 = ALARM := by
  rcases List.mem_append.mp hp with h | h
  · exact Or.inl h
  · simp only [List.mem_singleton] at h
    subst h
    exact Or.inr rfl

/-- States whose write logs are unchanged satisfy the write relation. -/
theorem writesOnlyAlarm_of_logs_eq {s s1 : EvalState}
    (h1 : s1.refreshLog = s.refreshLog) (h2 : s1.cacheWrites = s.cacheWrites) :
    writesOnlyAlarm s s1 :=
  ⟨fun _ hp => Or.inl (h1 ▸ hp), fun _ hp => Or.inl (h2 ▸ hp)⟩

/-- The cache half of `_refresh` with state `ALARM` keeps the refresh log
and only adds `ALARM` entries to the cache-write log; its `KeyError`
outcome leaves the state as given. -/
theorem refreshCachedCopy_writes (env : Env) (alarm : Alarm) (s1 : EvalState) :
    (∀ s2, refreshCachedCopy env alarm ALARM s1 = .ok s2 →
        s2.refreshLog = s1.refreshLog ∧
        ∀ p ∈ s2.cacheWrites, p ∈ s1.cacheWrites ∨ p.2 = ALARM) ∧
    (∀ e s2, refreshCachedCopy env alarm ALARM s1 = .error (e, s2) → s2 = s1) := by
  constructor
  · intro s2 h
    unfold refreshCachedCopy at h
    split at h
    · split at h
      · split at h
        · injection h with h2
          subst h2
          exact ⟨rfl, fun p hp => mem_append_alarm hp⟩
        · cases h
      · injection h with h2
        subst h2
        exact ⟨rfl, fun p hp => Or.inl hp⟩
    · injection h with h2
      subst h2
      exact ⟨rfl, fun p hp => Or.inl hp⟩
  · intro e s2 h
    unfold refreshCachedCopy at h
    split at h
    · split at h
      · split at h
        · cases h
        · injection h with h2
          injection h2 with he hs
          exact hs.symm
      · cases h
    · cases h

/-- Both outcomes of `_refresh` with state `ALARM` only add `ALARM`
writes. -/
theorem refreshAlarm_writes (env : Env) (alarm : Alarm) (s : EvalState) :
    (∀ s1, refreshAlarm env alarm ALARM s = .ok s1 → writesOnlyAlarm s s1) ∧
    (∀ e s1, refreshAlarm env alarm ALARM s = .error (e, s1) → writesOnlyAlarm s s1) := by
  constructor
  · intro s1 h
    unfold refreshAlarm at h
    split at h
    · cases h
    · have hc := (refreshCachedCopy_writes env alarm _).1 s1 h
      refine ⟨fun p hp => ?_, fun p hp => ?_⟩
      · rw [hc.1] at hp
        exact mem_append_alarm hp
      · rcases hc.2 p hp with h1 | h1
        · exact Or.inl h1
        · exact Or.inr h1
  · intro e s1 h
    unfold refreshAlarm at h
    split at h
    · injection h with h2
      injection h2 with he hs
      rw [hs.symm]
      exact writesOnlyAlarm_refl _
    · have hc := (refreshCachedCopy_writes env alarm _).2 e s1 h
      subst hc
      exact ⟨fun p hp => mem_append_alarm hp, fun p hp => Or.inl hp⟩

/-- One engine step over an alarm only adds `ALARM` writes. -/
theorem stepAlarm_writes (env : Env) (ev : Event) (s : EvalState) (alarm : Alarm) :
    writesOnlyAlarm s (stepAlarm env ev s alarm) := by
  unfold stepAlarm evaluateAlarmFull
  cases h : evaluate_alarm alarm ev with
  | error e => exact writesOnlyAlarm_refl s
  | ok b =>
      cases b with
      | false => exact writesOnlyAlarm_refl s
      | true =>
          unfold fire_alarm
          cases hr : refreshAlarm env alarm ALARM s with
          | ok s1 => exact (refreshAlarm_writes env alarm s).1 s1 hr
          | error p =>
              obtain ⟨e, s1⟩ := p
              exact (refreshAlarm_writes env alarm s).2 e s1 hr

/-- The per-alarm loop only adds `ALARM` writes. -/
theorem processAlarms_writes (env : Env) (ev : Event) :
    ∀ (l : List (String × Alarm)) (s : EvalState), writesOnlyAlarm s (processAlarms env ev l s)
  | [], s => writesOnlyAlarm_refl s
  | ia :: rest, s =>
      writesOnlyAlarm_trans (stepAlarm_writes env ev s ia.2)
        (processAlarms_writes env ev rest (stepAlarm env ev s ia.2))

/-- Storage fetching leaves both write logs untouched, whether it succeeds
or raises. -/
theorem fetchAlarms_logs (env : Env) (now : Int) (s : EvalState) (project : PyVal) :
    (∀ m s1, fetchAlarms env now s project = .ok (m, s1) →
        s1.refreshLog = s.refreshLog ∧ s1.cacheWrites = s.cacheWrites) ∧
    (∀ e s1, fetchAlarms env now s project = .error (e, s1) →
        s1.refreshLog = s.refreshLog ∧ s1.cacheWrites = s.cacheWrites) := by
  constructor
  · intro m s1 h
    unfold fetchAlarms at h
    split at h
    · cases h
    · split at h
      · injection h with h2
        injection h2 with hm hs
        subst hs
        exact ⟨rfl, rfl⟩
      · injection h with h2
        injection h2 with hm hs
        subst hs
        exact ⟨rfl, rfl⟩
  · intro e s1 h
    unfold fetchAlarms at h
    split at h
    · injection h with h2
      injection h2 with he hs
      subst hs
      exact ⟨rfl, rfl⟩
    · split at h <;> cases h

/-- Alarm lookup through the cache leaves both write logs untouched. -/
theorem get_project_alarms_logs (env : Env) (now : Int) (s : EvalState) (project : PyVal) :
    (∀ m s1, get_project_alarms env now s project = .ok (m, s1) →
        s1.refreshLog = s.refreshLog ∧ s1.cacheWrites = s.cacheWrites) ∧
    (∀ e s1, get_project_alarms env now s project = .error (e, s1) →
        s1.refreshLog = s.refreshLog ∧ s1.cacheWrites = s.cacheWrites) := by
  constructor
  · intro m s1 h
    unfold get_project_alarms at h
    split at h
    · split at h
      · split at h
        · exact (fetchAlarms_logs env now { s with caches := cacheDel s.caches project } project).1 m s1 h
        · injection h with h2
          injection h2 with hm hs
          subst hs
          exact ⟨rfl, rfl⟩
      · exact (fetchAlarms_logs env now s project).1 m s1 h
    · exact (fetchAlarms_logs env now s project).1 m s1 h
  · intro e s1 h
    unfold get_project_alarms at h
    split at h
    · split at h
      · split at h
        · exact (fetchAlarms_logs env now { s with caches := cacheDel s.caches project } project).2 e s1 h
        · cases h
      · exact (fetchAlarms_logs env now s project).2 e s1 h
    · exact (fetchAlarms_logs env now s project).2 e s1 h

/-- Evaluating one event only adds `ALARM` writes, whether it completes
or raises. -/
theorem evalOneEvent_writes (env : Env) (now : Int) (s : EvalState) (e : PyVal) :
    (∀ s1, evalOneEvent env now s e = .ok s1 → writesOnlyAlarm s s1) ∧
    (∀ er s1, evalOneEvent env now s e = .error (er, s1) → writesOnlyAlarm s s1) := by
  constructor
  · intro s1 h
    unfold evalOneEvent at h
    split at h
    · injection h with h2
      subst h2
      exact writesOnlyAlarm_refl _
    · cases h
    · rename_i ev heq
      split at h
      · cases h
      · rename_i m s0 hget
        injection h with h2
        subst h2
        exact writesOnlyAlarm_trans
          (writesOnlyAlarm_of_logs_eq
            ((get_project_alarms_logs env now s ev.project).1 m s0 hget).1
            ((get_project_alarms_logs env now s ev.project).1 m s0 hget).2)
          (processAlarms_writes env ev m s0)
  · intro er s1 h
    unfold evalOneEvent at h
    split at h
    · cases h
    · injection h with h2
      injection h2 with he hs
      rw [hs.symm]
      exact writesOnlyAlarm_refl _
    · rename_i ev heq
      split at h
      · rename_i es hget
        obtain ⟨er0, s0⟩ := es
        injection h with h2
        injection h2 with he hs
        rw [hs.symm]
        exact writesOnlyAlarm_of_logs_eq
          ((get_project_alarms_logs env now s ev.project).2 er0 s0 hget).1
          ((get_project_alarms_logs env now s ev.project).2 er0 s0 hget).2
      · cases h

/-- The event loop only adds `ALARM` writes. -/
theorem evalLoop_writes (env : Env) (now : Int) :
    ∀ (events : List PyVal) (s : EvalState),
      writesOnlyAlarm s (evalLoop env now events s).2
  | [], s => writesOnlyAlarm_refl s
  | e :: rest, s => by
      unfold evalLoop
      cases h : evalOneEvent env now s e with
      | ok s1 =>
          exact writesOnlyAlarm_trans ((evalOneEvent_writes env now s e).1 s1 h)
            (evalLoop_writes env now rest s1)
      | error p =>
          obtain ⟨er, s1⟩ := p
          exact (evalOneEvent_writes env now s e).2 er s1 h

/-- C9: every alarm state write the evaluator performs during
`evaluate_events` — both the persisted write through the refresh
collaborator (`refreshLog`) and the in-place update of the cached copy
(`cacheWrites`) — sets the state to `alarm`; no operation ever writes `ok`
or `insufficient data`. -/
theorem state_writes_only_alarm (env : Env) (now : Int) (s : EvalState) (events : PyVal) :
    (∀ p ∈ (evaluate_events env now s events).2.refreshLog,
        p ∈ s.refreshLog ∨ p.2 = ALARM) ∧
    (∀ p ∈ (evaluate_events env now s events).2.cacheWrites,
        p ∈ s.cacheWrites ∨ p.2 = ALARM) := by
  cases events with
  | list xs => exact evalLoop_writes env now xs s
  | none => exact evalLoop_writes env now [PyVal.none] s
  | str a => exact evalLoop_writes env now [.str a] s
  | int a => exact evalLoop_writes env now [.int a] s
  | float a => exact evalLoop_writes env now [.float a] s
  | dt a => exact evalLoop_writes env now [.dt a] s
  | dict a => exact evalLoop_writes env now [.dict a] s

/-- Witness for C9: the concrete run that fires `alarmGt` records the
persisted write `("a-1", alarm)`, and the theorem confirms its state is
`alarm`. -/
theorem state_writes_only_alarm_witness :
    ("a-1", ALARM) ∈ (evaluate_events envTtl 0 stateEmpty (.list [rawUpdate])).2.refreshLog ∧
    (("a-1", ALARM) ∈ stateEmpty.refreshLog ∨ (("a-1", ALARM) : String × String).2 = ALARM) := by
  have hmem :
      ("a-1", ALARM) ∈ (evaluate_events envTtl 0 stateEmpty (.list [rawUpdate])).2.refreshLog := by
    simp [show (evaluate_events envTtl 0 stateEmpty (.list [rawUpdate])).2.refreshLog =
            [("a-1", ALARM)] from rfl]
  exact ⟨hmem,
    (state_writes_only_alarm envTtl 0 stateEmpty (.list [rawUpdate])).1 ("a-1", ALARM) hmem⟩

end AodhEvent
